import Mathlib

/-!
Verification of the lint orchestration module of the Deno CLI, source file
cli/tools/lint.rs. The Rust code is shallowly embedded: pure functions become
Lean functions, the mutable reporter and the shared has-error flag become
explicit state passing, fallible operations return Except values, and the
machine integers (usize) become Nat, with checked variants making the unsigned
subtractions explicit where underflow matters. External collaborators
(the deno_lint engine, the file system, standard input) are abstracted as
explicit parameters; repository code that is not part of the embedded module
is modelled from the specification and marked as such.
-/

namespace DenoLint

/-- Zero-based source position (deno_lint diagnostic Position): line index and
column index. -/
structure Position where
  line_index : Nat
  column_index : Nat
  deriving DecidableEq

/-- Source range of a diagnostic, deno_lint diagnostic Range. Rust names the
second field end, a reserved word in Lean, hence end_. -/
structure LintRange where
  start : Position
  end_ : Position
  deriving DecidableEq

/-- deno_lint LintDiagnostic, restricted to the fields the lint module reads:
file name, range, rule code, message and optional hint. -/
structure LintDiagnostic where
  filename : String
  range : LintRange
  code : String
  message : String
  hint : Option String
  deriving DecidableEq

/-- Record appended by the structured reporter for a file-level error
(struct LintError, lint.rs lines 260-264). -/
structure LintError where
  file_path : String
  message : String
  deriving DecidableEq

/-- Comparator used by sort_diagnostics (lint.rs lines 418-434): compare the
file names; on a tie compare the start line indices; on a further tie compare
the start column indices. -/
def diagnostic_cmp (a b : LintDiagnostic) : Ordering :=
  let file_order := compare a.filename b.filename
  match file_order with
  | Ordering.eq =>
    let line_order := compare a.range.start.line_index b.range.start.line_index
    match line_order with
    | Ordering.eq =>
      compare a.range.start.column_index b.range.start.column_index
    | _ => line_order
  | _ => file_order

/-- Nonstrict order induced by the comparator: a sorts no later than b. -/
def diag_le (a b : LintDiagnostic) : Prop := diagnostic_cmp a b ≠ Ordering.gt

instance diag_le_decidable : DecidableRel diag_le := fun a b =>
  inferInstanceAs (Decidable (diagnostic_cmp a b ≠ Ordering.gt))

/-- sort_diagnostics (lint.rs lines 416-435). Rust Vec sort_by is a stable
comparison sort, and a stable sort with respect to a total preorder has a
unique result, realised here by the stable List.insertionSort. -/
def sort_diagnostics (diagnostics : List LintDiagnostic) : List LintDiagnostic :=
  List.insertionSort diag_le diagnostics

/-- The comparator written as the lexicographic composite of the three key
projections, used to transfer order-theoretic facts. -/
@[reducible] def lex_key_cmp : LintDiagnostic → LintDiagnostic → Ordering :=
  compareLex (compareOn (fun d : LintDiagnostic => d.filename))
    (compareLex (compareOn (fun d : LintDiagnostic => d.range.start.line_index))
      (compareOn (fun d : LintDiagnostic => d.range.start.column_index)))

/-- Specification comparator: primary key the file name (lexicographic),
secondary key the start line index (numeric), tertiary key the start column
index (numeric). -/
def spec_key_cmp (a b : LintDiagnostic) : Ordering :=
  (compare a.filename b.filename).then
    ((compare a.range.start.line_index b.range.start.line_index).then
      (compare a.range.start.column_index b.range.start.column_index))

/-- Diagnostic with the given file name and start position and a point range,
empty code and message, no hint. -/
def mk_diag (file : String) (line col : Nat) : LintDiagnostic :=
  ⟨file, ⟨⟨line, col⟩, ⟨line, col⟩⟩, "", "", none⟩

/-- Example diagnostic D1 of the specification: file a.ts, line 5, column 2. -/
def exD1 : LintDiagnostic := mk_diag "a.ts" 5 2

/-- Example diagnostic D2 of the specification: file a.ts, line 5, column 1. -/
def exD2 : LintDiagnostic := mk_diag "a.ts" 5 1

/-- Example diagnostic D3 of the specification: file b.ts, line 1, column 1. -/
def exD3 : LintDiagnostic := mk_diag "b.ts" 1 1

/-- String repetition, Rust str repeat. -/
def str_repeat (s : String) (n : Nat) : String := String.join (List.replicate n s)

/-- Modelled from the spec: the colors module (crate colors, not under src/)
colorizes or highlights text for the terminal; the marker text itself is
unchanged, so colorization is modelled as the identity on the string. -/
def colors_red (s : String) : String := s

/-- Modelled from the spec: colors cyan, identity for the same reason as
colors_red. -/
def colors_cyan (s : String) : String := s

/-- Modelled from the spec: fmt_errors format_location (not under src/)
renders a location line of the shape file, 1-based line, column. -/
def format_location (file : String) (line : Int) (col : Int) : String :=
  file ++ ":" ++ toString line ++ ":" ++ toString col

/-- Body of the snippet loop of format_diagnostic (lint.rs lines 335-358) for
one enumerated source line: the line itself, then the marker lines the Rust
loop pushes after it. -/
def snippet_block (range : LintRange) (p : Nat × String) : List String :=
  let i := p.1
  let line := p.2
  if range.start.line_index = range.end_.line_index then
    [line, str_repeat " " range.start.column_index ++
      colors_red (str_repeat "^" (range.end_.column_index - range.start.column_index))]
  else
    let line_len := line.length
    if range.start.line_index = i then
      [line, str_repeat " " range.start.column_index ++
        colors_red (str_repeat "^" (line_len - range.start.column_index))]
    else if range.end_.line_index = i then
      [line, colors_red (str_repeat "^" range.end_.column_index)]
    else if line_len ≠ 0 then
      [line, colors_red (str_repeat "^" line_len)]
    else
      [line]

/-- Snippet loop of format_diagnostic (lint.rs lines 327-359): iterate over
the enumerated source lines, keeping the indices from start.line_index through
end.line_index, pushing each source line and its marker lines. -/
def snippet_lines (source_lines : List String) (range : LintRange) : List String :=
  (((source_lines.enum).take (range.end_.line_index + 1)).drop
    range.start.line_index).flatMap (snippet_block range)

/-- format_diagnostic (lint.rs lines 319-380): the message line, the snippet,
the location line, then the optional hint line and the fixed help line. -/
def format_diagnostic (diagnostic_code : String) (message_line : String)
    (source_lines : List String) (range : LintRange) (maybe_hint : Option String)
    (formatted_location : String) : String :=
  let lines := snippet_lines source_lines range
  let hint :=
    match maybe_hint with
    | some hint => "    " ++ colors_cyan "hint:" ++ " " ++ hint ++ "\n"
    | none => ""
  let help := "    " ++ colors_cyan "help:" ++
    " for further information visit https://lint.deno.land/#" ++ diagnostic_code
  message_line ++ "\n" ++ String.intercalate "\n" lines ++ "\n    at " ++
    formatted_location ++ "\n\n" ++ hint ++ help

/-- Nat subtraction that records underflow, mirroring Rust usize subtraction,
which panics when the subtrahend exceeds the minuend. -/
def checked_sub (a b : Nat) : Option Nat := if b ≤ a then some (a - b) else none

/-- Marker block for one enumerated line with every unsigned subtraction of
the loop body checked. -/
def snippet_block_checked (range : LintRange) (p : Nat × String) :
    Option (List String) :=
  let i := p.1
  let line := p.2
  if range.start.line_index = range.end_.line_index then
    (checked_sub range.end_.column_index range.start.column_index).map
      (fun k => [line, str_repeat " " range.start.column_index ++
        colors_red (str_repeat "^" k)])
  else
    let line_len := line.length
    if range.start.line_index = i then
      (checked_sub line_len range.start.column_index).map
        (fun k => [line, str_repeat " " range.start.column_index ++
          colors_red (str_repeat "^" k)])
    else if range.end_.line_index = i then
      some [line, colors_red (str_repeat "^" range.end_.column_index)]
    else if line_len ≠ 0 then
      some [line, colors_red (str_repeat "^" line_len)]
    else
      some [line]

/-- Snippet loop with checked subtraction: none exactly when some subtraction
performed by the loop underflows. -/
def snippet_lines_checked (source_lines : List String) (range : LintRange) :
    Option (List String) :=
  ((((source_lines.enum).take (range.end_.line_index + 1)).drop
    range.start.line_index).mapM (snippet_block_checked range)).map List.flatten

/-- Specification rendering of a single-line range: the source line, then a
marker line of start.column_index spaces followed by end.column_index minus
start.column_index carets. -/
def spec_single_line_snippet (source_lines : List String) (range : LintRange) :
    List String :=
  [source_lines.getD range.start.line_index "",
    str_repeat " " range.start.column_index ++
      str_repeat "^" (range.end_.column_index - range.start.column_index)]

/-- Specification rendering of a multi-line range: the inclusive slice of
lines from start.line_index through end.line_index where the first line gets
a marker of start.column_index spaces then carets to the end of that line,
the last line gets carets up to end.column_index, and an interior line gets a
full-length caret line when nonempty and no caret line when empty. -/
def spec_multi_line_snippet (source_lines : List String) (range : LintRange) :
    List String :=
  (List.range' range.start.line_index
    (range.end_.line_index + 1 - range.start.line_index)).flatMap
    (fun i =>
      let line := source_lines.getD i ""
      [line] ++
        (if i = range.start.line_index then
          [str_repeat " " range.start.column_index ++
            str_repeat "^" (line.length - range.start.column_index)]
        else if i = range.end_.line_index then
          [str_repeat "^" range.end_.column_index]
        else if line.length ≠ 0 then
          [str_repeat "^" line.length]
        else []))

/-- Rust str split on the newline character over the character list: the
pieces between newlines, keeping empty pieces; the result is never empty. -/
def split_newline_chars : List Char → List (List Char)
  | [] => [[]]
  | c :: rest =>
    let r := split_newline_chars rest
    if c = '\n' then [] :: r
    else (c :: r.headD []) :: r.tail

/-- Rust str split on the newline character, as used by handle_lint_result
(lint.rs line 244) to produce the source lines for the reporter. -/
def split_lines (s : String) : List String :=
  (split_newline_chars s.data).map (fun cs => String.mk cs)

/-- State of the two reporter variants behind the LintReporter trait
(lint.rs lines 254-258): the pretty reporter holds its running diagnostic
count and the lines it has printed; the JSON reporter accumulates diagnostics
and errors. -/
inductive Reporter where
  | pretty (lint_count : Nat) (printed : List String)
  | json (diagnostics : List LintDiagnostic) (errors : List LintError)
  deriving DecidableEq

/-- Message printed by the pretty reporter for one diagnostic
(lint.rs lines 277-296): the red code and message, rendered through
format_diagnostic with the 1-indexed line of the location. -/
def pretty_render (d : LintDiagnostic) (source_lines : List String) : String :=
  let pretty_message := "(" ++ colors_red d.code ++ ") " ++ d.message
  format_diagnostic d.code pretty_message source_lines d.range d.hint
    (format_location d.filename (Int.ofNat d.range.start.line_index + 1)
      (Int.ofNat d.range.start.column_index))

/-- visit_diagnostic of the two reporter variants (lint.rs lines 277-297 and
398-400): the pretty reporter increments its count and prints the rendered
message, the JSON reporter appends the diagnostic. -/
def visit_diagnostic (r : Reporter) (d : LintDiagnostic)
    (source_lines : List String) : Reporter :=
  match r with
  | Reporter.pretty lint_count printed =>
    Reporter.pretty (lint_count + 1) (printed ++ [pretty_render d source_lines])
  | Reporter.json diagnostics errors => Reporter.json (diagnostics ++ [d]) errors

/-- visit_error of the two reporter variants (lint.rs lines 299-302 and
402-407). -/
def visit_error (r : Reporter) (file_path : String) (err : String) : Reporter :=
  match r with
  | Reporter.pretty lint_count printed =>
    Reporter.pretty lint_count
      (printed ++ ["Error linting: " ++ file_path, "   " ++ err])
  | Reporter.json diagnostics errors =>
    Reporter.json diagnostics (errors ++ [⟨file_path, err⟩])

/-- Lines printed by the pretty reporter close (lint.rs lines 304-316): a
summary line when the diagnostic count is positive, then the checked-files
line, singular for a count of at most one. -/
def pretty_close_lines (lint_count : Nat) (check_count : Nat) : List String :=
  (if lint_count = 1 then ["Found 1 problem"]
   else if 1 < lint_count then ["Found " ++ toString lint_count ++ " problems"]
   else []) ++
  (if check_count ≤ 1 then ["Checked " ++ toString check_count ++ " file"]
   else ["Checked " ++ toString check_count ++ " files"])

/-- close on either reporter variant (lint.rs lines 304-316 and 409-413): the
pretty reporter prints its summary lines; the JSON reporter sorts the
accumulated diagnostics and prints its serialized state. -/
def reporter_close (r : Reporter) (check_count : Nat) : Reporter :=
  match r with
  | Reporter.pretty lint_count printed =>
    Reporter.pretty lint_count (printed ++ pretty_close_lines lint_count check_count)
  | Reporter.json diagnostics errors =>
    Reporter.json (sort_diagnostics diagnostics) errors

/-- Per-file lint outcome: the diagnostics and the source text, or an error. -/
abbrev LintOutcome := Except String (List LintDiagnostic × String)

/-- handle_lint_result (lint.rs lines 231-252) as explicit state passing over
the reporter and the shared has-error flag: on success sort the diagnostics
and visit each in order, raising the flag once per diagnostic; on failure
raise the flag and visit the error. -/
def handle_lint_result (file_path : String) (result : LintOutcome)
    (reporter : Reporter) (has_error : Bool) : Reporter × Bool :=
  match result with
  | Except.ok (file_diagnostics, source) =>
    (sort_diagnostics file_diagnostics).foldl
      (fun st d => (visit_diagnostic st.1 d (split_lines source), true))
      (reporter, has_error)
  | Except.error err => (visit_error reporter file_path err, true)

/-- Outcome processing of a whole session: handle_lint_result folded over the
per-file outcomes, starting from the given reporter and a lowered flag
(lint.rs lines 92 and 126-143). -/
def run_outcomes (outcomes : List (String × LintOutcome)) (reporter : Reporter) :
    Reporter × Bool :=
  outcomes.foldl (fun st pr => handle_lint_result pr.1 pr.2 st.1 st.2)
    (reporter, false)

/-- Exit status derived from the final has-error flag (lint.rs lines 146-152). -/
def session_exit_code (has_error : Bool) : Nat := if has_error then 1 else 0

/-- Whether one outcome records a failure: an error, or at least one
diagnostic. -/
def outcome_failed (result : LintOutcome) : Bool :=
  match result with
  | Except.ok (ds, _) => !ds.isEmpty
  | Except.error _ => true

/-- Modelled from the spec: the rules section of the project lint
configuration (crate config_file, not under src/): optional tag, include and
exclude lists. -/
structure LintRulesConfig where
  tags : Option (List String)
  include_ : Option (List String)
  exclude : Option (List String)
  deriving DecidableEq

/-- Modelled from the spec: the files section of the project lint
configuration: include and exclude path lists. -/
structure FilesConfig where
  include_ : List String
  exclude : List String
  deriving DecidableEq

/-- Modelled from the spec: the project lint configuration with its files and
rules sections. -/
structure LintConfig where
  rules : LintRulesConfig
  files : FilesConfig
  deriving DecidableEq

/-- Interface of the external deno_lint rules catalog, abstract in the rule
representation: the recommended set (get_recommended_rules) and the filtered
set for a selector of tags, exclude list and include list, in the argument
order of the Rust call (get_filtered_rules). -/
structure RulesApi (ρ : Type) where
  recommended : List ρ
  filtered : Option (List String) → Option (List String) → Option (List String) → List ρ

/-- get_configured_rules (lint.rs lines 437-491). The final emptiness check in
the Rust source evaluates the anyhow invocation with the message No rules have
been configured but discards the resulting error value instead of returning
it, so every non-early path returns Ok with the possibly empty filtered rules;
the embedding reproduces that behaviour. -/
def get_configured_rules {ρ : Type} (api : RulesApi ρ)
    (maybe_lint_config : Option LintConfig)
    (rules_tags rules_include rules_exclude : List String) :
    Except String (List ρ) :=
  if maybe_lint_config.isNone && rules_tags.isEmpty && rules_include.isEmpty &&
      rules_exclude.isEmpty then
    Except.ok api.recommended
  else
    let cfg_triple :=
      match maybe_lint_config with
      | some lint_config =>
        (lint_config.rules.tags, lint_config.rules.include_, lint_config.rules.exclude)
      | none => (none, none, none)
    let config_file_tags := cfg_triple.1
    let config_file_include := cfg_triple.2.1
    let config_file_exclude := cfg_triple.2.2
    let maybe_configured_include :=
      if !rules_include.isEmpty then some rules_include else config_file_include
    let maybe_configured_exclude :=
      if !rules_exclude.isEmpty then some rules_exclude else config_file_exclude
    let configured_tags :=
      if !rules_tags.isEmpty then rules_tags else config_file_tags.getD []
    let configured_rules :=
      api.filtered (some configured_tags) maybe_configured_exclude
        maybe_configured_include
    -- The Rust code checks configured_rules.is_empty() here and builds an
    -- anyhow error value, but never returns it; the value is dropped.
    Except.ok configured_rules

/-- Selector triple handed to the external filtered-rules call: tags, exclude
list, include list, in the argument order of the Rust call. -/
abbrev SelectorTriple :=
  Option (List String) × Option (List String) × Option (List String)

/-- Rules catalog that returns the selector it was asked for, used to observe
which selector get_configured_rules resolves. -/
def recording_api : RulesApi SelectorTriple :=
  ⟨[], fun t e i => [(t, e, i)]⟩

/-- Rules catalog whose filtered set is empty for every selector, the
situation the no-rules-configured check is meant to reject. -/
def zero_rules_api : RulesApi String :=
  ⟨["no-empty", "no-var"], fun _ _ _ => []⟩

/-- Example project configuration with tags recommended and an include list
that the CLI include list should override. -/
def example_lint_config : LintConfig :=
  ⟨⟨some ["recommended"], some ["camelcase"], none⟩, ⟨[], []⟩⟩

/-- Fixed pseudo-filename of the standard-input path (lint.rs line 32). -/
def STDIN_FILE_NAME : String := "_stdin.ts"

/-- Source dialect passed to the external engine: the stdin path fixes
TypeScript; a file path goes through the external detection from the path,
kept symbolic here. -/
inductive MediaTypeM where
  | typeScript
  | fromPath (path : String)
  deriving DecidableEq

/-- Modelled from the spec: the effectful collaborators of lint_files — the
contents of standard input (none when reading fails), file reading, file
collection over include and exclude lists, and the external engine producing
diagnostics for (rules, filename, dialect, source). -/
structure LintEnv where
  stdin_content : Option String
  read_file : String → Except String String
  collect_files : List String → List String → Except String (List String)
  lint_source : List String → String → MediaTypeM → String →
    Except String (List LintDiagnostic)

/-- lint_file (lint.rs lines 195-209): read the file, detect its dialect from
the path, run the linter, return the diagnostics with the source text. -/
def lint_file (env : LintEnv) (file_path : String) (lint_rules : List String) :
    LintOutcome :=
  match env.read_file file_path with
  | Except.error e => Except.error e
  | Except.ok source_code =>
    match env.lint_source lint_rules file_path (MediaTypeM.fromPath file_path)
        source_code with
    | Except.error e => Except.error e
    | Except.ok file_diagnostics => Except.ok (file_diagnostics, source_code)

/-- lint_stdin (lint.rs lines 214-229): read all of standard input, lint it as
TypeScript under the fixed pseudo-filename. -/
def lint_stdin (env : LintEnv) (lint_rules : List String) : LintOutcome :=
  match env.stdin_content with
  | none => Except.error "Failed to read from stdin"
  | some source_code =>
    match env.lint_source lint_rules STDIN_FILE_NAME MediaTypeM.typeScript
        source_code with
    | Except.error e => Except.error e
    | Except.ok file_diagnostics => Except.ok (file_diagnostics, source_code)

/-- One scheduled analysis task: file name, dialect, and the source text that
was delivered to the engine (none when the read failed). -/
structure LintTask where
  file_name : String
  dialect : MediaTypeM
  source : Option String
  deriving DecidableEq

/-- Observable trace of one lint_files run: whether file collection ran,
whether the parallel scheduler ran, the tasks in order, the file count handed
to close, the closed reporter, the final flag and the exit status. -/
structure LintRun where
  used_collect : Bool
  parallelized : Bool
  tasks : List LintTask
  no_of_files_linted : Nat
  reporter : Reporter
  has_error : Bool
  exit_code : Nat
  deriving DecidableEq

/-- lint_files (lint.rs lines 46-153) with the process effects made explicit:
resolve the file include and exclude lists (CLI flags over configuration),
resolve the rules, then either lint standard input as a single unscheduled
task (argument list exactly the sentinel) or collect the target files and run
one task per file through the parallel scheduler; close the reporter with the
number of files linted and derive the exit status from the has-error flag. -/
def lint_files (env : LintEnv) (api : RulesApi String)
    (maybe_lint_config : Option LintConfig)
    (rules_tags rules_include rules_exclude : List String)
    (args : List String) (ignore : List String) (json : Bool) :
    Except String LintRun :=
  let include_files :=
    match maybe_lint_config with
    | some lint_config =>
      if args.isEmpty then lint_config.files.include_ else args
    | none => args
  let exclude_files :=
    match maybe_lint_config with
    | some lint_config =>
      if ignore.isEmpty then lint_config.files.exclude else ignore
    | none => ignore
  match get_configured_rules api maybe_lint_config rules_tags rules_include
      rules_exclude with
  | Except.error e => Except.error e
  | Except.ok lint_rules =>
    let reporter := if json then Reporter.json [] [] else Reporter.pretty 0 []
    if args.length = 1 && args.headD "" = "-" then
      let r := lint_stdin env lint_rules
      let st := handle_lint_result STDIN_FILE_NAME r reporter false
      let closed := reporter_close st.1 1
      Except.ok ⟨false, false,
        [⟨STDIN_FILE_NAME, MediaTypeM.typeScript, env.stdin_content⟩],
        1, closed, st.2, session_exit_code st.2⟩
    else
      match env.collect_files include_files exclude_files with
      | Except.error e => Except.error e
      | Except.ok target_files =>
        if target_files.isEmpty then Except.error "No target files found."
        else
          let st := target_files.foldl
            (fun st file_path =>
              handle_lint_result file_path (lint_file env file_path lint_rules)
                st.1 st.2)
            (reporter, false)
          let closed := reporter_close st.1 target_files.length
          Except.ok ⟨true, true,
            target_files.map (fun f =>
              ⟨f, MediaTypeM.fromPath f, (env.read_file f).toOption⟩),
            target_files.length, closed, st.2, session_exit_code st.2⟩

/-- Environment for the concrete no-rules run: one readable target file and an
engine that returns no diagnostics. -/
def env_c2 : LintEnv :=
  ⟨some "", fun _ => Except.ok "let a = 1;",
    fun _ _ => Except.ok ["a.ts"], fun _ _ _ _ => Except.ok []⟩

theorem diagnostic_cmp_eq_lex (a b : LintDiagnostic) :
    diagnostic_cmp a b = lex_key_cmp a b := by
  unfold diagnostic_cmp lex_key_cmp compareLex compareOn
  cases h1 : compare a.filename b.filename <;>
    cases h2 : compare a.range.start.line_index b.range.start.line_index <;>
      simp [h1, h2, Ordering.then]

theorem diagnostic_cmp_eq_spec (a b : LintDiagnostic) :
    diagnostic_cmp a b = spec_key_cmp a b := by
  unfold diagnostic_cmp spec_key_cmp
  cases h1 : compare a.filename b.filename <;>
    cases h2 : compare a.range.start.line_index b.range.start.line_index <;>
      simp [h1, h2, Ordering.then]

theorem diag_le_total_pair (a b : LintDiagnostic) : diag_le a b ∨ diag_le b a := by
  unfold diag_le
  by_cases h : diagnostic_cmp a b = Ordering.gt
  · right
    rw [diagnostic_cmp_eq_lex] at h ⊢
    have hlt : lex_key_cmp b a = Ordering.lt := Batteries.OrientedCmp.cmp_eq_gt.mp h
    rw [hlt]
    simp
  · left; exact h

theorem diag_le_trans_thm (a b c : LintDiagnostic)
    (h1 : diag_le a b) (h2 : diag_le b c) : diag_le a c := by
  unfold diag_le at h1 h2 ⊢
  rw [diagnostic_cmp_eq_lex] at h1 h2 ⊢
  exact Batteries.TransCmp.le_trans h1 h2

instance diag_le_total : IsTotal LintDiagnostic diag_le := ⟨diag_le_total_pair⟩

instance diag_le_trans : IsTrans LintDiagnostic diag_le := ⟨diag_le_trans_thm⟩

theorem diag_le_antisymm_keys (a b : LintDiagnostic)
    (h1 : diag_le a b) (h2 : diag_le b a) :
    a.filename = b.filename ∧
      a.range.start.line_index = b.range.start.line_index ∧
      a.range.start.column_index = b.range.start.column_index := by
  unfold diag_le at h1 h2
  rw [diagnostic_cmp_eq_lex] at h1 h2
  have heq : lex_key_cmp a b = Ordering.eq := by
    cases h : lex_key_cmp a b
    · exact absurd (Batteries.OrientedCmp.cmp_eq_gt.mpr h) h2
    · rfl
    · exact absurd h h1
  have heq2 : spec_key_cmp a b = Ordering.eq := by
    rw [← diagnostic_cmp_eq_spec, diagnostic_cmp_eq_lex]; exact heq
  unfold spec_key_cmp at heq2
  cases hf : compare a.filename b.filename <;> rw [hf] at heq2 <;>
    simp [Ordering.then] at heq2
  cases hl : compare a.range.start.line_index b.range.start.line_index <;>
    rw [hl] at heq2 <;> simp [Ordering.then] at heq2
  exact ⟨Batteries.BEqCmp.cmp_iff_eq.mp hf,
    Batteries.BEqCmp.cmp_iff_eq.mp hl, Batteries.BEqCmp.cmp_iff_eq.mp heq2⟩

theorem sort_diagnostics_sorted (l : List LintDiagnostic) :
    List.Sorted diag_le (sort_diagnostics l) :=
  List.sorted_insertionSort diag_le l

theorem sort_diagnostics_perm (l : List LintDiagnostic) :
    (sort_diagnostics l).Perm l :=
  List.perm_insertionSort diag_le l

/-- C1: sort_diagnostics imposes the deterministic total order with primary
key the file name compared lexicographically, secondary key the start line
index and tertiary key the start column index: the comparator equals the
three-key lexicographic comparator, the induced relation is total and
transitive, two diagnostics that compare equal agree on all three keys, every
sort result is a sorted permutation of its input, the example diagnostics
D1 (a.ts,5,2), D2 (a.ts,5,1), D3 (b.ts,1,1) sort as D2, D1, D3, and the JSON
reporter close applies this sort to its accumulated diagnostics. -/
theorem sort_diagnostics_total_order_spec :
    (∀ a b, diagnostic_cmp a b = spec_key_cmp a b) ∧
    (∀ a b, diag_le a b ∨ diag_le b a) ∧
    (∀ a b c, diag_le a b → diag_le b c → diag_le a c) ∧
    (∀ a b, diag_le a b → diag_le b a →
      a.filename = b.filename ∧
        a.range.start.line_index = b.range.start.line_index ∧
        a.range.start.column_index = b.range.start.column_index) ∧
    (∀ l, List.Sorted diag_le (sort_diagnostics l) ∧ (sort_diagnostics l).Perm l) ∧
    sort_diagnostics [exD1, exD2, exD3] = [exD2, exD1, exD3] ∧
    (∀ ds es n, reporter_close (Reporter.json ds es) n =
      Reporter.json (sort_diagnostics ds) es) :=
  ⟨diagnostic_cmp_eq_spec, diag_le_total_pair, diag_le_trans_thm,
    diag_le_antisymm_keys,
    fun l => ⟨sort_diagnostics_sorted l, sort_diagnostics_perm l⟩,
    by decide, fun _ _ _ => rfl⟩

/-- Witness for C1: the proved order at the concrete example diagnostics. -/
theorem sort_diagnostics_total_order_spec_witness :
    sort_diagnostics [exD1, exD2, exD3] = [exD2, exD1, exD3] :=
  sort_diagnostics_total_order_spec.2.2.2.2.2.1

/-- Helper: get_configured_rules never returns an error, whatever the
configuration and selectors; the empty-rules check of the source constructs
its error but does not return it. -/
theorem get_configured_rules_never_errors {ρ : Type} (api : RulesApi ρ)
    (maybe_lint_config : Option LintConfig)
    (rules_tags rules_include rules_exclude : List String) :
    ∃ rs, get_configured_rules api maybe_lint_config rules_tags rules_include
      rules_exclude = Except.ok rs := by
  unfold get_configured_rules
  split
  · exact ⟨_, rfl⟩
  · exact ⟨_, rfl⟩

/-- C2 (code bug): with the example configuration present, a nonempty CLI
include list and an external catalog that yields zero rules for every
selector, get_configured_rules returns Ok with the empty rule list — the
source builds the no-rules-configured error value but never returns it — and
lint_files therefore proceeds to collect and lint a file instead of aborting
before any file is processed. -/
theorem get_configured_rules_empty_returns_ok :
    get_configured_rules zero_rules_api (some example_lint_config) []
      ["no-empty"] [] = Except.ok [] ∧
    (lint_files env_c2 zero_rules_api (some example_lint_config) [] ["no-empty"]
        [] ["a.ts"] [] false).map
      (fun run => (run.used_collect, run.tasks, run.no_of_files_linted)) =
      Except.ok (true, [⟨"a.ts", MediaTypeM.fromPath "a.ts", some "let a = 1;"⟩], 1) := by
  constructor
  · rfl
  · rfl

theorem visit_fold_flag (ds : List LintDiagnostic) (src : List String)
    (r : Reporter) (e : Bool) :
    (ds.foldl (fun st d => (visit_diagnostic st.1 d src, true)) (r, e)).2 =
      (e || !ds.isEmpty) := by
  induction ds generalizing r e with
  | nil => simp
  | cons d t ih => simp [List.foldl_cons, ih]

theorem handle_lint_result_flag (fp : String) (res : LintOutcome)
    (r : Reporter) (e : Bool) :
    (handle_lint_result fp res r e).2 = (e || outcome_failed res) := by
  cases res with
  | ok pr =>
    obtain ⟨ds, src⟩ := pr
    unfold handle_lint_result outcome_failed
    rw [visit_fold_flag, (sort_diagnostics_perm ds).isEmpty_eq]
  | error err => simp [handle_lint_result, outcome_failed]

theorem run_outcomes_flag (outcomes : List (String × LintOutcome))
    (r : Reporter) (e : Bool) :
    (outcomes.foldl (fun st pr => handle_lint_result pr.1 pr.2 st.1 st.2)
      (r, e)).2 = (e || outcomes.any (fun pr => outcome_failed pr.2)) := by
  induction outcomes generalizing r e with
  | nil => simp
  | cons p t ih =>
    have h1 := ih (handle_lint_result p.1 p.2 r e).1
      (handle_lint_result p.1 p.2 r e).2
    rw [Prod.mk.eta] at h1
    rw [List.foldl_cons, h1, handle_lint_result_flag, List.any_cons]
    cases e <;> cases outcome_failed p.2 <;> simp

/-- C3: processing all per-file outcomes yields exit status 1 exactly when
some outcome was an error or carried at least one diagnostic, and exit status
0 exactly when none was; the final has-error flag is true exactly under the
same condition. -/
theorem session_exit_code_iff_failure (outcomes : List (String × LintOutcome))
    (reporter : Reporter) :
    ((run_outcomes outcomes reporter).2 = true ↔
      ∃ pr ∈ outcomes, outcome_failed pr.2 = true) ∧
    (session_exit_code (run_outcomes outcomes reporter).2 = 1 ↔
      ∃ pr ∈ outcomes, outcome_failed pr.2 = true) ∧
    (session_exit_code (run_outcomes outcomes reporter).2 = 0 ↔
      ∀ pr ∈ outcomes, outcome_failed pr.2 = false) := by
  have hflag : (run_outcomes outcomes reporter).2 =
      outcomes.any (fun pr => outcome_failed pr.2) := by
    unfold run_outcomes
    rw [run_outcomes_flag]
    simp
  have hif1 : ∀ b : Bool, (if b then 1 else 0) = 1 ↔ b = true := by
    intro b
    cases b <;> simp
  have hif0 : ∀ b : Bool, (if b then 1 else 0) = 0 ↔ b = false := by
    intro b
    cases b <;> simp
  refine ⟨?_, ?_, ?_⟩
  · rw [hflag, List.any_eq_true]
  · unfold session_exit_code
    rw [hflag, hif1, List.any_eq_true]
  · unfold session_exit_code
    rw [hflag, hif0, List.any_eq_false]
    simp only [Bool.not_eq_true]

/-- Witness for C3: one erroring file makes the exit status 1. -/
theorem session_exit_code_iff_failure_witness :
    session_exit_code
      (run_outcomes [("a.ts", Except.error "io")] (Reporter.pretty 0 [])).2 = 1 :=
  (session_exit_code_iff_failure [("a.ts", Except.error "io")]
    (Reporter.pretty 0 [])).2.1.mpr
    ⟨("a.ts", Except.error "io"), List.mem_singleton.mpr rfl, rfl⟩

theorem visit_fold_json (l : List LintDiagnostic) (src : List String)
    (jd : List LintDiagnostic) (es : List LintError) (e : Bool) :
    (l.foldl (fun st d => (visit_diagnostic st.1 d src, true))
      (Reporter.json jd es, e)).1 = Reporter.json (jd ++ l) es := by
  induction l generalizing jd e with
  | nil => simp
  | cons d t ih =>
    rw [List.foldl_cons]
    exact (ih (jd ++ [d]) true).trans (by simp)

theorem visit_fold_pretty (l : List LintDiagnostic) (src : List String)
    (n : Nat) (printed : List String) (e : Bool) :
    (l.foldl (fun st d => (visit_diagnostic st.1 d src, true))
      (Reporter.pretty n printed, e)).1 =
      Reporter.pretty (n + l.length)
        (printed ++ l.map (fun d => pretty_render d src)) := by
  induction l generalizing n printed e with
  | nil => simp
  | cons d t ih =>
    rw [List.foldl_cons]
    refine (ih (n + 1) (printed ++ [pretty_render d src]) true).trans ?_
    congr 1
    · simp
      omega
    · simp

/-- C9: for a successful per-file outcome, handle_lint_result visits exactly
the sorted diagnostics in sorted order for both reporter variants: the JSON
reporter state gains sort_diagnostics of the file's diagnostics, the pretty
reporter prints one rendered message per sorted diagnostic in that order, and
the visited sequence is sorted under the comparator. -/
theorem handle_lint_result_visits_sorted (file_path source : String)
    (ds : List LintDiagnostic) (jd : List LintDiagnostic) (es : List LintError)
    (n : Nat) (printed : List String) (e : Bool) :
    (handle_lint_result file_path (Except.ok (ds, source))
        (Reporter.json jd es) e).1 =
      Reporter.json (jd ++ sort_diagnostics ds) es ∧
    (handle_lint_result file_path (Except.ok (ds, source))
        (Reporter.pretty n printed) e).1 =
      Reporter.pretty (n + ds.length)
        (printed ++ (sort_diagnostics ds).map
          (fun d => pretty_render d (split_lines source))) ∧
    List.Sorted diag_le (sort_diagnostics ds) := by
  refine ⟨?_, ?_, sort_diagnostics_sorted ds⟩
  · unfold handle_lint_result
    rw [visit_fold_json]
  · unfold handle_lint_result
    rw [visit_fold_pretty, (sort_diagnostics_perm ds).length_eq]

/-- Witness for C9: the JSON reporter receives the sorted example
diagnostics. -/
theorem handle_lint_result_visits_sorted_witness :
    (handle_lint_result "a.ts" (Except.ok ([exD1, exD2], "x"))
        (Reporter.json [] []) false).1 =
      Reporter.json ([] ++ sort_diagnostics [exD1, exD2]) [] :=
  (handle_lint_result_visits_sorted "a.ts" "x" [exD1, exD2] [] [] 0 []
    false).1

/-- C4: the selector handed to the external catalog resolves the include list
and the exclude list from the CLI list when that is nonempty and from the
configuration file otherwise, and the tags from the CLI when nonempty and
from the configuration otherwise with empty default — both when a
configuration file is present and, provided some CLI selector is nonempty,
without one; in particular with configuration tags ["recommended"] and CLI
include ["no-empty"] the resolved include list is exactly ["no-empty"]. -/
theorem get_configured_rules_precedence
    (cfg : LintConfig) (rules_tags rules_include rules_exclude : List String) :
    (get_configured_rules recording_api (some cfg) rules_tags rules_include
        rules_exclude =
      Except.ok [(
        some (if rules_tags.isEmpty then cfg.rules.tags.getD [] else rules_tags),
        (if rules_exclude.isEmpty then cfg.rules.exclude else some rules_exclude),
        (if rules_include.isEmpty then cfg.rules.include_ else some rules_include))]) ∧
    (¬(rules_tags.isEmpty = true ∧ rules_include.isEmpty = true ∧
        rules_exclude.isEmpty = true) →
      get_configured_rules recording_api none rules_tags rules_include
          rules_exclude =
        Except.ok [(
          some (if rules_tags.isEmpty then [] else rules_tags),
          (if rules_exclude.isEmpty then none else some rules_exclude),
          (if rules_include.isEmpty then none else some rules_include))]) ∧
    get_configured_rules recording_api (some example_lint_config) []
        ["no-empty"] [] =
      Except.ok [(some ["recommended"], none, some ["no-empty"])] := by
  refine ⟨?_, ?_, rfl⟩
  · unfold get_configured_rules recording_api
    cases h1 : rules_tags.isEmpty <;> cases h2 : rules_include.isEmpty <;>
      cases h3 : rules_exclude.isEmpty <;> simp [h1, h2, h3]
  · intro hne
    unfold get_configured_rules recording_api
    cases h1 : rules_tags.isEmpty <;> cases h2 : rules_include.isEmpty <;>
      cases h3 : rules_exclude.isEmpty <;> simp [h1, h2, h3]
    exact absurd ⟨h1, h2, h3⟩ hne

/-- Witness for C4: with no configuration file and nonempty CLI tags, the
resolved selector keeps the CLI tags and no include or exclude list. -/
theorem get_configured_rules_precedence_witness :
    get_configured_rules recording_api none ["recommended"] [] [] =
      Except.ok [(some ["recommended"], none, none)] :=
  ((get_configured_rules_precedence example_lint_config ["recommended"] []
    []).2.1 (by decide)).trans rfl

/-- C7 counterexample: at diagnostic count 0 the pretty reporter close prints
no Found summary line at all, so it does not print a summary for every
diagnostic count. -/
theorem pretty_close_zero_counterexample :
    pretty_close_lines 0 2 = ["Checked 2 files"] ∧
    (pretty_close_lines 0 2).contains "Found 0 problems" = false := by
  constructor
  · decide
  · decide

/-- C7 amended: close prints Found 1 problem at diagnostic count 1, Found N
problems for N above 1 and no summary line at 0, followed by Checked M file
for M at most 1 and Checked M files above 1, M being the processed-file count
handed to close. -/
theorem pretty_close_spec (n m : Nat) :
    (n = 0 → pretty_close_lines n m =
      [if m ≤ 1 then "Checked " ++ toString m ++ " file"
       else "Checked " ++ toString m ++ " files"]) ∧
    (n = 1 → pretty_close_lines n m =
      "Found 1 problem" ::
        [if m ≤ 1 then "Checked " ++ toString m ++ " file"
         else "Checked " ++ toString m ++ " files"]) ∧
    (1 < n → pretty_close_lines n m =
      ("Found " ++ toString n ++ " problems") ::
        [if m ≤ 1 then "Checked " ++ toString m ++ " file"
         else "Checked " ++ toString m ++ " files"]) := by
  refine ⟨?_, ?_, ?_⟩ <;> intro h <;> unfold pretty_close_lines
  · subst h
    simp
    split <;> rfl
  · subst h
    simp
    split <;> rfl
  · have h1 : n ≠ 1 := by omega
    simp [h1, h]
    split <;> rfl

/-- Witness for C7: two problems over one checked file. -/
theorem pretty_close_spec_witness :
    pretty_close_lines 2 1 = ["Found 2 problems", "Checked 1 file"] :=
  ((pretty_close_spec 2 1).2.2 (by decide)).trans (by decide)

/-- C8: with argument list exactly the stdin sentinel, lint_files performs no
file collection, schedules no parallel work, runs the single task named by
the fixed pseudo-filename _stdin.ts with the TypeScript dialect and the whole
stdin text as its source, and hands exactly one processed file to close. -/
theorem lint_files_stdin_path (env : LintEnv) (api : RulesApi String)
    (maybe_lint_config : Option LintConfig)
    (rules_tags rules_include rules_exclude ignore : List String) (json : Bool) :
    ∃ run, lint_files env api maybe_lint_config rules_tags rules_include
        rules_exclude ["-"] ignore json = Except.ok run ∧
      run.used_collect = false ∧
      run.parallelized = false ∧
      run.tasks = [⟨STDIN_FILE_NAME, MediaTypeM.typeScript, env.stdin_content⟩] ∧
      STDIN_FILE_NAME = "_stdin.ts" ∧
      run.no_of_files_linted = 1 := by
  obtain ⟨rs, hrs⟩ := get_configured_rules_never_errors api maybe_lint_config
    rules_tags rules_include rules_exclude
  unfold lint_files
  rw [hrs]
  exact ⟨_, rfl, rfl, rfl, rfl, rfl, rfl⟩

/-- Witness for C8: the stdin run over the concrete environment. -/
theorem lint_files_stdin_path_witness :
    (lint_files env_c2 zero_rules_api none [] [] [] ["-"] [] true).map
      (fun run =>
        (run.used_collect, run.parallelized, run.tasks, run.no_of_files_linted)) =
      Except.ok (false, false,
        [⟨"_stdin.ts", MediaTypeM.typeScript, some ""⟩], 1) := by
  obtain ⟨run, h1, h2, h3, h4, h5, h6⟩ :=
    lint_files_stdin_path env_c2 zero_rules_api none [] [] [] [] true
  rw [h1]
  show Except.ok (run.used_collect, run.parallelized, run.tasks,
    run.no_of_files_linted) = _
  rw [h2, h3, h4, h6]
  rfl

theorem snippet_slice_eq (l : List String) (s e : Nat) (he : e < l.length) :
    (l.enum.take (e + 1)).drop s =
      (List.range' s (e + 1 - s)).map (fun i => (i, l.getD i "")) := by
  apply List.ext_getElem
  · simp [List.length_drop, List.length_take, List.enum_length,
      List.length_range']
    omega
  · intro n h1 h2
    simp only [List.getElem_drop, List.getElem_take, List.getElem_enum,
      List.getElem_map, List.getElem_range']
    have hb : s + n < l.length := by
      simp [List.length_drop, List.length_take, List.enum_length] at h1
      omega
    simp [List.getD_eq_getElem, hb]

theorem mem_snippet_slice {l : List String} {s e : Nat} {p : Nat × String}
    (hp : p ∈ (l.enum.take (e + 1)).drop s) :
    s ≤ p.1 ∧ p.1 ≤ e ∧ p.1 < l.length ∧ p.2 = l.getD p.1 "" := by
  obtain ⟨n, hn, hget⟩ := List.mem_iff_getElem.mp hp
  have hlen := hn
  simp only [List.length_drop, List.length_take, List.enum_length] at hlen
  simp only [List.getElem_drop, List.getElem_take, List.getElem_enum] at hget
  have hb : s + n < l.length := by omega
  subst hget
  refine ⟨by omega, by omega, hb, ?_⟩
  simp [List.getD_eq_getElem, hb]

theorem mapM_option_eq_some_map {α β : Type} (f : α → Option β) (g : α → β)
    (l : List α) (h : ∀ a ∈ l, f a = some (g a)) :
    l.mapM f = some (l.map g) := by
  induction l with
  | nil => rfl
  | cons a t ih =>
    rw [List.mapM_cons, h a (List.mem_cons_self a t),
      ih (fun x hx => h x (List.mem_cons_of_mem a hx))]
    rfl

/-- C5: for a single-line range whose line is in bounds the snippet is the
source line followed by a marker line of start.column_index spaces and then
end.column_index minus start.column_index carets; a zero-width range yields
the marker with an empty caret run; and the example range (0,4)-(0,7) over
the line of the specification yields four spaces then three carets. -/
theorem format_diagnostic_single_line (source_lines : List String)
    (range : LintRange)
    (hline : range.start.line_index = range.end_.line_index)
    (hbound : range.start.line_index < source_lines.length) :
    snippet_lines source_lines range =
      spec_single_line_snippet source_lines range ∧
    (range.start.column_index = range.end_.column_index →
      snippet_lines source_lines range =
        [source_lines.getD range.start.line_index "",
          str_repeat " " range.start.column_index]) ∧
    snippet_lines ["let xxx = 1;"] ⟨⟨0, 4⟩, ⟨0, 7⟩⟩ =
      ["let xxx = 1;", "    ^^^"] := by
  have he : range.end_.line_index < source_lines.length := hline ▸ hbound
  have hmain : snippet_lines source_lines range =
      spec_single_line_snippet source_lines range := by
    unfold snippet_lines
    rw [snippet_slice_eq source_lines range.start.line_index
      range.end_.line_index he]
    have h1 : range.end_.line_index + 1 - range.start.line_index = 1 := by
      omega
    rw [h1, List.range'_one]
    simp [snippet_block, spec_single_line_snippet, hline, colors_red]
  refine ⟨hmain, ?_, by decide⟩
  intro hcol
  rw [hmain]
  unfold spec_single_line_snippet str_repeat
  rw [hcol, Nat.sub_self, List.replicate_zero]
  rw [show String.join ([] : List String) = "" from rfl, String.append_empty]

/-- Witness for C5: the example range over the example line. -/
theorem format_diagnostic_single_line_witness :
    snippet_lines ["let xxx = 1;"] ⟨⟨0, 4⟩, ⟨0, 7⟩⟩ =
      spec_single_line_snippet ["let xxx = 1;"] ⟨⟨0, 4⟩, ⟨0, 7⟩⟩ :=
  (format_diagnostic_single_line ["let xxx = 1;"] ⟨⟨0, 4⟩, ⟨0, 7⟩⟩ rfl
    (by decide)).1

/-- C6: for a multi-line range in bounds the snippet is the inclusive slice
of source lines where the first line carries a marker of start.column_index
spaces then carets to the end of that line, the last line carries carets up
to end.column_index, and an interior line carries a full-length caret line
exactly when it is nonempty. -/
theorem format_diagnostic_multi_line (source_lines : List String)
    (range : LintRange)
    (hlt : range.start.line_index < range.end_.line_index)
    (hbound : range.end_.line_index < source_lines.length) :
    snippet_lines source_lines range =
      spec_multi_line_snippet source_lines range := by
  unfold snippet_lines spec_multi_line_snippet
  rw [snippet_slice_eq source_lines range.start.line_index
    range.end_.line_index hbound]
  rw [List.flatMap_map, List.flatMap_def, List.flatMap_def]
  congr 1
  apply List.map_congr_left
  intro i hi
  rw [List.mem_range'_1] at hi
  obtain ⟨his, hie⟩ := hi
  simp only [snippet_block, colors_red]
  have hne : ¬(range.start.line_index = range.end_.line_index) := by omega
  rw [if_neg hne]
  by_cases h1 : i = range.start.line_index
  · rw [if_pos h1.symm, if_pos h1]
    rfl
  · rw [if_neg (fun hh => h1 hh.symm), if_neg h1]
    by_cases h2 : i = range.end_.line_index
    · rw [if_pos h2.symm, if_pos h2]
      rfl
    · rw [if_neg (fun hh => h2 hh.symm), if_neg h2]
      split <;> rfl

/-- Witness for C6: a range spanning lines 2 through 4 with an empty line 3. -/
theorem format_diagnostic_multi_line_witness :
    snippet_lines ["l0", "l1", "abc", "", "fgh", "x"] ⟨⟨2, 1⟩, ⟨4, 2⟩⟩ =
      spec_multi_line_snippet ["l0", "l1", "abc", "", "fgh", "x"]
        ⟨⟨2, 1⟩, ⟨4, 2⟩⟩ :=
  format_diagnostic_multi_line ["l0", "l1", "abc", "", "fgh", "x"]
    ⟨⟨2, 1⟩, ⟨4, 2⟩⟩ (by decide) (by decide)

/-- C10: when start is not after end in document order, the start column is
at most the end column on a single-line range, and the start column is at
most the length of the range's first source line on a multi-line range, no
unsigned subtraction of the snippet loop underflows: the checked loop
succeeds and agrees with the unchecked one. -/
theorem snippet_lines_checked_total (source_lines : List String)
    (range : LintRange)
    (hdoc : range.start.line_index < range.end_.line_index ∨
      (range.start.line_index = range.end_.line_index ∧
        range.start.column_index ≤ range.end_.column_index))
    (hfirst : range.start.line_index < range.end_.line_index →
      range.start.column_index ≤
        (source_lines.getD range.start.line_index "").length) :
    snippet_lines_checked source_lines range =
      some (snippet_lines source_lines range) := by
  unfold snippet_lines_checked snippet_lines
  rw [mapM_option_eq_some_map (snippet_block_checked range)
    (snippet_block range) _ ?_]
  · rw [List.flatMap_def]
    rfl
  · intro p hp
    obtain ⟨hs, he, hl, hval⟩ := mem_snippet_slice hp
    simp only [snippet_block_checked, snippet_block, checked_sub]
    by_cases h1 : range.start.line_index = range.end_.line_index
    · rw [if_pos h1, if_pos h1]
      have hc : range.start.column_index ≤ range.end_.column_index := by
        rcases hdoc with h | ⟨_, hc⟩
        · omega
        · exact hc
      rw [if_pos hc]
      rfl
    · rw [if_neg h1, if_neg h1]
      by_cases h2 : range.start.line_index = p.1
      · rw [if_pos h2, if_pos h2]
        have hmulti : range.start.line_index < range.end_.line_index := by
          rcases hdoc with h | ⟨heq, _⟩
          · exact h
          · exact absurd heq h1
        have hcol : range.start.column_index ≤ p.2.length := by
          rw [hval, ← h2]
          exact hfirst hmulti
        rw [if_pos hcol]
        rfl
      · rw [if_neg h2, if_neg h2]
        split
        · rfl
        · split <;> rfl

/-- Witness for C10: a two-line range within bounds. -/
theorem snippet_lines_checked_total_witness :
    snippet_lines_checked ["abc", "de"] ⟨⟨0, 1⟩, ⟨1, 2⟩⟩ =
      some (snippet_lines ["abc", "de"] ⟨⟨0, 1⟩, ⟨1, 2⟩⟩) :=
  snippet_lines_checked_total ["abc", "de"] ⟨⟨0, 1⟩, ⟨1, 2⟩⟩
    (Or.inl (by decide)) (fun _ => by decide)

end DenoLint
